import Mathlib

/-!
Verification of the PyXbar menu library (`src/pyxbar`): a shallow embedding of
the menu / menu-item data model, its rendering algorithm, the configuration
overlay, and the shell-token handling, with theorems checking the repository's
specification claims against this embedding.

Conventions of the embedding:
* Python strings are `String`, Python ints are `Int`, `Optional[bool]` is
  `Option Bool`, tuples/lists of strings are `List String` (tagged by
  `PyParams` where the tuple/list distinction is observable through `str()`).
* Code that can raise (`shlex.split` on unbalanced quotes, unpacking an empty
  token list, rendering a non-renderable list element) returns `Option`,
  `none` meaning the Python code raises.
* Ambient process state (the `get_config()` singleton, `os.path.expanduser`,
  `sys.version`) is passed explicitly in a `Ctx` record; `expanduser` is an
  oracle function since it consults the OS environment.
-/

namespace PyXbar

/-- The single-quote character (U+0027), named to build shell-quoted strings. -/
def sq : Char := Char.ofNat 39

/-- One-character string holding a single quote. -/
def sqS : String := String.mk [sq]

/-- Backslash character. -/
def bsl : Char := Char.ofNat 92

/-- Newline / carriage-return / tab characters (used by `shlex` whitespace). -/
def nlC : Char := Char.ofNat 10

def crC : Char := Char.ofNat 13

def tabC : Char := Char.ofNat 9

/-! ### Decimal rendering, modelling Python `str(int)` -/

/-- Decimal digit characters. -/
def digitChar : Nat → Char
  | 0 => '0' | 1 => '1' | 2 => '2' | 3 => '3' | 4 => '4'
  | 5 => '5' | 6 => '6' | 7 => '7' | 8 => '8' | _ => '9'

/-- Fuel-driven accumulator loop producing the decimal digits of `n`
(most significant first); `fuel > n` suffices. -/
def natReprGo : Nat → Nat → List Char → List Char
  | 0, _, acc => acc
  | fuel + 1, n, acc =>
    if n < 10 then digitChar n :: acc
    else natReprGo fuel (n / 10) (digitChar (n % 10) :: acc)

/-- Decimal representation of a natural number (models Python `str`). -/
def natRepr (n : Nat) : String := String.mk (natReprGo (n + 1) n [])

/-- Decimal representation of an integer (models Python `str`). -/
def intRepr (i : Int) : String :=
  if i < 0 then "-" ++ natRepr i.natAbs else natRepr i.natAbs

/-! ### `shlex.quote` -/

/-- Characters `shlex.quote` treats as safe: ASCII letters, digits,
underscore, and `@` `%` `+` `=` `:` `,` `.` the slash and the hyphen
(the complement of the library's `_find_unsafe` pattern). -/
def shlexSafe (c : Char) : Bool :=
  c.isAlpha || c.isDigit ||
    (c = '_' || c = '@' || c = '%' || c = '+' || c = '=' ||
     c = ':' || c = ',' || c = '.' || c = '/' || c = '-')

/-- `shlex.quote`: empty string becomes `''`; fully safe strings are returned
verbatim; otherwise the string is wrapped in single quotes with each embedded
single quote replaced by `'"'"'`. -/
def shlexQuote (s : String) : String :=
  if s = "" then sqS ++ sqS
  else if s.data.all shlexSafe then s
  else
    sqS ++ String.mk (s.data.flatMap fun c =>
      if c = sq then [sq, '"', sq, '"', sq] else [c]) ++ sqS

/-! ### `shlex.split` (POSIX mode, `whitespace_split=True`)

The scanner state: outside quotes, inside single quotes, inside double
quotes, or just after a backslash (remembering where to return to).
`none` models the `ValueError` raised on an unclosed quote or a trailing
escape character. -/

inductive SpState where
  | plain
  | insq
  | indq
  | escP
  | escD
deriving DecidableEq

/-- `shlex` whitespace: space, tab, carriage return, newline. -/
def isShWS (c : Char) : Bool := c = ' ' || c = tabC || c = crC || c = nlC

/-- One pass of the `shlex` scanner. `tok` is the token being accumulated,
`came` records whether a token is in progress (so quoted empty strings
produce a token). -/
def shlexSplitGo : SpState → List Char → List Char → Bool → List String →
    Option (List String)
  | .plain, [], tok, came, acc =>
    some (if came then acc ++ [String.mk tok] else acc)
  | .plain, c :: cs, tok, came, acc =>
    if isShWS c then
      if came then shlexSplitGo .plain cs [] false (acc ++ [String.mk tok])
      else shlexSplitGo .plain cs [] false acc
    else if c = sq then shlexSplitGo .insq cs tok true acc
    else if c = '"' then shlexSplitGo .indq cs tok true acc
    else if c = bsl then shlexSplitGo .escP cs tok true acc
    else shlexSplitGo .plain cs (tok ++ [c]) true acc
  | .insq, [], _, _, _ => none
  | .insq, c :: cs, tok, came, acc =>
    if c = sq then shlexSplitGo .plain cs tok came acc
    else shlexSplitGo .insq cs (tok ++ [c]) came acc
  | .indq, [], _, _, _ => none
  | .indq, c :: cs, tok, came, acc =>
    if c = '"' then shlexSplitGo .plain cs tok came acc
    else if c = bsl then shlexSplitGo .escD cs tok came acc
    else shlexSplitGo .indq cs (tok ++ [c]) came acc
  | .escP, [], _, _, _ => none
  | .escP, c :: cs, tok, _, acc => shlexSplitGo .plain cs (tok ++ [c]) true acc
  | .escD, [], _, _, _ => none
  | .escD, c :: cs, tok, came, acc =>
    if c = '"' || c = bsl then shlexSplitGo .indq cs (tok ++ [c]) came acc
    else shlexSplitGo .indq cs (tok ++ [bsl, c]) came acc

/-- `shlex.split(s)`; `none` models a raised `ValueError`. -/
def shlexSplit (s : String) : Option (List String) :=
  shlexSplitGo .plain s.data [] false []

/-! ### Python `repr` / `str` for strings, lists and tuples

Models CPython `repr` for strings made of printable characters and ASCII
control characters (the only ones this library produces). -/

/-- Lower-case hex digit. -/
def hexDigit (n : Nat) : Char := if n < 10 then digitChar n else Char.ofNat (87 + n)

/-- Escape one character of a `repr`-ed string delimited by quote char `q`. -/
def pyCharEsc (q : Char) (c : Char) : List Char :=
  if c = bsl then [bsl, bsl]
  else if c = q then [bsl, q]
  else if c = nlC then [bsl, 'n']
  else if c = crC then [bsl, 'r']
  else if c = tabC then [bsl, 't']
  else if c.val < 32 || c.val = 127 then
    [bsl, 'x', hexDigit (c.val.toNat / 16 % 16), hexDigit (c.val.toNat % 16)]
  else [c]

/-- Python `repr` of a string: single-quote delimited unless the string
contains a single quote but no double quote. -/
def pyStrRepr (s : String) : String :=
  let q := if sq ∈ s.data ∧ '"' ∉ s.data then '"' else sq
  String.mk (q :: s.data.flatMap (pyCharEsc q) ++ [q])

/-- Python `str` of a list of strings. -/
def pyListRepr (l : List String) : String :=
  "[" ++ String.intercalate ", " (l.map pyStrRepr) ++ "]"

/-- Python `str` of a tuple of strings (note the single-element trailing comma). -/
def pyTupleRepr (l : List String) : String :=
  "(" ++ String.intercalate ", " (l.map pyStrRepr) ++
    (if l.length = 1 then ",)" else ")")

/-- Python `str` of a bool. -/
def pyBool (b : Bool) : String := if b then "True" else "False"

/-- The `params` attribute: a tuple when set by the caller (dataclass
default), a list after `ShellItem.__post_init__` re-assigns it by unpacking a
generator. The distinction is observable through Python `str()`. -/
inductive PyParams where
  | tup (l : List String)
  | lst (l : List String)
deriving DecidableEq

/-- The underlying sequence of a `params` value. -/
def PyParams.toList : PyParams → List String
  | .tup l => l
  | .lst l => l

/-- Python `str` of a `params` value. -/
def pyParamsStr : PyParams → String
  | .tup l => pyTupleRepr l
  | .lst l => pyListRepr l

/-! ### `Config` (src/pyxbar/config.py)

Fields of the dataclass in declaration order; `CACHE_DIR` is a `Path`,
modelled as its string form. -/

structure Config where
  DEBUG : Bool := false
  MONO_FONT : String := "Andale Mono"
  CACHE_DIR : String := ""
  _errors : List String := []
  _warnings : List String := []
deriving DecidableEq

/-- `Config.error`: append `msg` to `_errors` unless already present. -/
def Config.error (cfg : Config) (msg : String) : Config :=
  if msg ∈ cfg._errors then cfg else { cfg with _errors := cfg._errors ++ [msg] }

/-- `Config.warn`: append `msg` to `_warnings` unless already present. -/
def Config.warn (cfg : Config) (msg : String) : Config :=
  if msg ∈ cfg._warnings then cfg else { cfg with _warnings := cfg._warnings ++ [msg] }

/-- `Config.__post_init__`: every upper-case field whose value is a `Path`
gets `expanduser().resolve()` applied — of the three declared fields only
`CACHE_DIR` is a `Path`.  The expansion consults the OS, so it is passed as
the oracle `pathResolve`.  Nothing else happens (the `DEBUG` branch only
logs); in particular `_errors` and `_warnings` are untouched. -/
def configPostInit (pathResolve : String → String) (cfg : Config) : Config :=
  { cfg with CACHE_DIR := pathResolve cfg.CACHE_DIR }

/-! ### `MenuItem` scalar fields (src/pyxbar/menu.py, lines 150-175)

The 19 leading dataclass fields plus the non-serialized trailing fields
(`title_alternate`, `monospace`, `only_if`); `magic_number` is a `ClassVar`
and not a field.  `only_if` holds the truthiness of the Python value. -/

structure MenuFields where
  title : String
  key : String := ""
  href : String := ""
  color : String := ""
  font : String := ""
  size : Int := 0
  shell : String := ""
  params : PyParams := .tup []
  terminal : Option Bool := none
  refresh : Option Bool := none
  dropdown : Option Bool := none
  length : Int := 0
  trim : Option Bool := none
  alternate : Option Bool := none
  templateImage : String := ""
  image : String := ""
  emojize : Option Bool := none
  ansi : Option Bool := none
  disabled : Option Bool := none
  title_alternate : Option String := none
  monospace : Option Bool := some false
  only_if : Bool := true
deriving DecidableEq

/-- The dynamic class of an item, as far as rendering dispatch goes:
plain `MenuItem` (also `Divider`, `MonoItem`), or `ShellItem` with its
`cwd` attribute (`none` models `cwd=None`; the attribute stays a raw string
because `ShellItem.__init__` assigns it after `__post_init__` ran). -/
inductive ItemKind where
  | plain
  | shellKind (cwd : Option String)
deriving DecidableEq

/-! ### The menu tree

`submenu`, `siblings` and `Menu.items` are Python lists typed
`list[Renderable]` but `with_something` can push raw one-character strings
into them (the string-iterable branch); rendering such an element raises
`AttributeError`, modelled by `none`. -/

mutual
inductive Entry where
  | item (f : MenuFields) (kind : ItemKind) (submenu : EList) (siblings : EList)
  | raw (s : String)

inductive EList where
  | nil
  | cons (e : Entry) (es : EList)
end

/-- Append of entry lists. -/
def EList.append : EList → EList → EList
  | .nil, ys => ys
  | .cons x xs, ys => .cons x (EList.append xs ys)

instance : Append EList := ⟨EList.append⟩

/-- An `EList` from a Lean list. -/
def elOfList : List Entry → EList
  | [] => .nil
  | e :: es => .cons e (elOfList es)

/-- Ambient process state: the `get_config()` singleton, the
`os.path.expanduser` oracle and `sys.version`. -/
structure Ctx where
  cfg : Config
  userExpand : String → String
  sysVersion : String

/-! ### Parameter serialization (src/pyxbar/menu.py, lines 212-238) -/

/-- `'--' * depth` etc.: `n`-fold repetition of a string. -/
def repeatStr (s : String) (n : Nat) : String :=
  match n with
  | 0 => ""
  | n + 1 => repeatStr s n ++ s

/-- One serialized `key=value` token. -/
def mkTok (k v : String) : String := k ++ "=" ++ v

/-- `param1=`, `param2=`, ... tokens: `enumerate(shell_params, i)`. -/
def paramToks : Nat → List String → List String
  | _, [] => []
  | i, p :: ps => mkTok ("param" ++ natRepr i) p :: paramToks (i + 1) ps

/-- `all_params`'s shell part: `shell=<first>` then numbered params, or
nothing when the token tuple is empty (falsy). -/
def shellTokenList : List String → List String
  | [] => []
  | s :: rest => mkTok "shell" s :: paramToks 1 rest

/-- The font after `menu_params`'s monospace resolution: if `font` is the
literal `"monospace"` or the `monospace` flag is truthy, the ambient
`MONO_FONT` is written into the field. -/
def effFont (cfg : Config) (f : MenuFields) : String :=
  if f.font = "monospace" ∨ f.monospace = some true then cfg.MONO_FONT else f.font

/-- A conditional singleton: serialized pair present iff the value is truthy. -/
def strIf (c : Prop) [Decidable c] (k v : String) : List (String × String) :=
  if c then [(k, v)] else []

/-- A ternary-boolean pair: present iff not `None`, including explicit
`False`. -/
def optB (k : String) : Option Bool → List (String × String)
  | some b => [(k, pyBool b)]
  | none => []

/-- `menu_params`: the dataclass fields at positions 1..18 except `shell`, in
declaration order, with Python `str` applied to the value; a pair is kept
when the field's hint is `Optional[bool]` and the value is not `None`, or
(for every other type) when the value is truthy. -/
def menuParams (cfg : Config) (f : MenuFields) : List (String × String) :=
  strIf (f.key ≠ "") "key" f.key ++
  strIf (f.href ≠ "") "href" f.href ++
  strIf (f.color ≠ "") "color" f.color ++
  strIf (effFont cfg f ≠ "") "font" (effFont cfg f) ++
  strIf (f.size ≠ 0) "size" (intRepr f.size) ++
  strIf (f.params.toList ≠ []) "params" (pyParamsStr f.params) ++
  optB "terminal" f.terminal ++
  optB "refresh" f.refresh ++
  optB "dropdown" f.dropdown ++
  strIf (f.length ≠ 0) "length" (intRepr f.length) ++
  optB "trim" f.trim ++
  optB "alternate" f.alternate ++
  strIf (f.templateImage ≠ "") "templateImage" f.templateImage ++
  strIf (f.image ≠ "") "image" f.image ++
  optB "emojize" f.emojize ++
  optB "ansi" f.ansi ++
  optB "disabled" f.disabled

/-- `all_params`'s trailing tokens: `f"{k}={quote(str(v))}"`. -/
def menuTokens (cfg : Config) (f : MenuFields) : List String :=
  (menuParams cfg f).map fun kv => mkTok kv.1 (shlexQuote kv.2)

/-- All serialized tokens of one rendered line, given the (possibly
cwd-prefixed) shell token tuple. -/
def lineTokens (cfg : Config) (f : MenuFields) (toks : List String) : List String :=
  shellTokenList toks ++ menuTokens cfg f

/-- `MenuItem.shell_params` (the base version, no cwd): empty tuple for an
empty `shell`, else the `shlex`-split and re-quoted command followed by the
stored `params`; `none` when `shlex.split` raises or the unpacking of an
empty split fails. -/
def baseShellParams (f : MenuFields) : Option (List String) :=
  if f.shell = "" then some []
  else
    match shlexSplit f.shell with
    | none => none
    | some [] => none
    | some (s :: ps) => some (shlexQuote s :: ps.map shlexQuote ++ f.params.toList)

/-- `ShellItem.shell_params(use_cwd=True)` dispatch: a `ShellItem` with a
truthy `cwd` prefixes the tuple with `cd <expanduser(cwd)> &&`. -/
def dispatchToks (ctx : Ctx) (kind : ItemKind) (base : List String) : List String :=
  match kind with
  | .plain => base
  | .shellKind none => base
  | .shellKind (some d) =>
    if d ≠ "" then "cd" :: ctx.userExpand d :: "&&" :: base else base

/-- The token list of `all_params()` as called by `render` (which uses the
dynamic `shell_params()` with its default `use_cwd=True`). -/
def allTokens (ctx : Ctx) (f : MenuFields) (kind : ItemKind) : Option (List String) :=
  (baseShellParams f).map fun base => lineTokens ctx.cfg f (dispatchToks ctx kind base)

/-- `check_output` builds its argument vector from
`shell_params(use_cwd=False)`, i.e. the base tokens without the cwd prefix. -/
def checkOutputArgv (f : MenuFields) : Option (List String) := baseShellParams f

/-! ### Line rendering (src/pyxbar/menu.py, lines 203-254) -/

/-- `depth_prefix`: two dashes per level plus one space separator unless the
item is a divider or at depth 0. -/
def depthIndent (f : MenuFields) (depth : Nat) : String :=
  repeatStr "--" depth ++ (if depth ≠ 0 ∧ f.title ≠ "---" then " " else "")

/-- `_title(depth)`. -/
def titleOf (f : MenuFields) (depth : Nat) : String := depthIndent f depth ++ f.title

/-- `_title(depth, alternate=True)` (the prefix still keys on the main
title's divider test). -/
def altTitleOf (f : MenuFields) (t : String) (depth : Nat) : String :=
  depthIndent f depth ++ t

/-- `" | ".join((title, *params))`. -/
def joinPipe (t : String) (toks : List String) : String :=
  String.intercalate " | " (t :: toks)

/-- The item's own line(s): the main line, plus the alternate-title line when
`title_alternate` is truthy. -/
def itemCoreLines (cfg : Config) (f : MenuFields) (toks : List String) (depth : Nat) :
    List String :=
  joinPipe (titleOf f depth) (lineTokens cfg f toks) ::
    match f.title_alternate with
    | none => []
    | some t => if t = "" then [] else [joinPipe (altTitleOf f t depth) (lineTokens cfg f toks)]

/-- The debug `MenuItem` yielded by `ShellItem.subclass_render_hook`. -/
def hookFields (ctx : Ctx) (base : List String) : MenuFields :=
  { title := "╰─ " ++ String.intercalate " " base
    font := ctx.cfg.MONO_FONT
    disabled := some true }

/-- Lines of `subclass_render_hook()`: empty for a plain `MenuItem`; for a
`ShellItem` in debug mode, the rendered debug item (a plain childless item,
so its render is exactly its core lines). -/
def hookLines (ctx : Ctx) (kind : ItemKind) (base : List String) (depth : Nat) :
    List String :=
  match kind with
  | .plain => []
  | .shellKind _ =>
    if ctx.cfg.DEBUG then itemCoreLines ctx.cfg (hookFields ctx base) [] depth else []

/-- `MenuItem.render` over a list of entries: for each item, if `only_if` is
falsy yield nothing; otherwise yield the core line(s), the subclass hook, the
submenu one level deeper and the siblings at the same depth.  A raw string in
the list raises (`none`). -/
def renderEL (ctx : Ctx) : Nat → EList → Option (List String)
  | _, .nil => some []
  | _, .cons (.raw _) _ => none
  | depth, .cons (.item f kind sub sib) es =>
    if f.only_if then
      match baseShellParams f with
      | none => none
      | some base =>
        match renderEL ctx (depth + 1) sub with
        | none => none
        | some subL =>
          match renderEL ctx depth sib with
          | none => none
          | some sibL =>
            match renderEL ctx depth es with
            | none => none
            | some esL =>
              some (itemCoreLines ctx.cfg f (dispatchToks ctx kind base) depth ++
                hookLines ctx kind base depth ++ subL ++ sibL ++ esL)
    else renderEL ctx depth es

/-- `MenuItem.render(depth)` for a single entry. -/
def entryRender (ctx : Ctx) (depth : Nat) (e : Entry) : Option (List String) :=
  renderEL ctx depth (.cons e .nil)

/-! ### Builder methods (src/pyxbar/utils.py `with_something`) -/

/-- A `Divider()` from `pyxbar.menu_items`. -/
def dividerEntry : Entry := .item { title := "---" } .plain .nil .nil

/-- An argument passed to `with_items` / `with_submenu` / `with_siblings`:
a single renderable or raw string (`ent`), or an iterable of renderables
(`many`). -/
inductive Child where
  | ent (e : Entry)
  | many (l : List Entry)

/-- Python truthiness of a child (`Menu.with_items` filters falsy ones).
Dataclass instances are always truthy; strings and lists by non-emptiness. -/
def childTruthy : Child → Bool
  | .ent (.raw s) => s ≠ ""
  | .ent (.item ..) => true
  | .many l => !l.isEmpty

/-- One step of `with_something`: a child equal to `"---"` first appends a
`Divider()`; then, because a string is also an `Iterable`, the same string is
split into its one-character elements and extends the list; a non-iterable
renderable is appended; an iterable extends. -/
def withOne (acc : EList) : Child → EList
  | .ent (.raw s) =>
    (if s = "---" then acc ++ .cons dividerEntry .nil else acc) ++
      elOfList (s.data.map fun c => Entry.raw (String.mk [c]))
  | .ent (.item f k sub sib) => acc ++ .cons (.item f k sub sib) .nil
  | .many l => acc ++ elOfList l

/-- `with_something(ret, key, *children)`: mutate `key` by the step above. -/
def withSomething (key : EList) (children : List Child) : EList :=
  children.foldl withOne key

/-- `MenuItem.with_submenu`. -/
def withSubmenu : Entry → List Child → Entry
  | .item f k sub sib, cs => .item f k (withSomething sub cs) sib
  | .raw s, _ => .raw s

/-- `MenuItem.with_siblings`. -/
def withSiblings : Entry → List Child → Entry
  | .item f k sub sib, cs => .item f k sub (withSomething sib cs)
  | .raw s, _ => .raw s

/-! ### `Menu` (src/pyxbar/menu.py, lines 56-79) -/

structure Menu where
  title : String
  items : EList := .nil

/-- `Menu.with_items`: falsy children are dropped, the rest go through
`with_something`. -/
def Menu.withItems (m : Menu) (cs : List Child) : Menu :=
  { m with items := withSomething m.items (cs.filter childTruthy) }

/-! ### `Config.render` (src/pyxbar/config.py, lines 73-91) -/

/-- Lexicographic comparison of character lists by code point: the string
order Python's `sorted` uses. -/
def charsLe : List Char → List Char → Bool
  | [], _ => true
  | _ :: _, [] => false
  | a :: as, b :: bs => if a = b then charsLe as bs else decide (a.toNat < b.toNat)

/-- Python's `str` ordering as a decidable relation. -/
def pyStrLe (a b : String) : Prop := charsLe a.data b.data = true

instance : DecidableRel pyStrLe :=
  fun a b => inferInstanceAs (Decidable (charsLe a.data b.data = true))

/-- `sorted(messages)`: Python's sort is stable, but over a total
antisymmetric order the sorted list is unique, so insertion sort is an exact
model. -/
def sortStrings (l : List String) : List String :=
  List.insertionSort pyStrLe l

/-- The `MenuItem(f"{depth_prefix} {preifx} {msg}")` diagnostic item. -/
def msgFields (glyph : String) (depth : Nat) (msg : String) : MenuFields :=
  { title := repeatStr "--" depth ++ " " ++ glyph ++ " " ++ msg }

/-- The `MenuItem(title, color=color)` category header item. -/
def headerFields (t c : String) : MenuFields := { title := t, color := c }

/-- One category of `Config.render`: nothing when the message list is empty,
else a divider, a colored header, and one line per message in sorted order
(each of these is a plain childless item, whose render is its core lines). -/
def sectionFor (cfg : Config) (t c glyph : String) (msgs : List String) (depth : Nat) :
    List String :=
  if msgs = [] then []
  else
    itemCoreLines cfg { title := "---" } [] depth ++
    itemCoreLines cfg (headerFields t c) [] depth ++
    (sortStrings msgs).flatMap fun m => itemCoreLines cfg (msgFields glyph depth m) [] depth

/-- The `f"{k}: {getattr(self, k)}"` lines of the debug `Vars` submenu, one
per dataclass field of `Config`. -/
def varsKVs (cfg : Config) : List String :=
  ["DEBUG: " ++ pyBool cfg.DEBUG,
   "MONO_FONT: " ++ cfg.MONO_FONT,
   "CACHE_DIR: " ++ cfg.CACHE_DIR,
   "_errors: " ++ pyListRepr cfg._errors,
   "_warnings: " ++ pyListRepr cfg._warnings]

/-- The debug tail of `Config.render`: the interpreter line (rendered at
depth 0 — `render()` is called without the depth), then `Vars` with its
submenu one level deeper. -/
def debugLines (ctx : Ctx) (depth : Nat) : List String :=
  itemCoreLines ctx.cfg { title := "🐍 " ++ ctx.sysVersion } [] 0 ++
  itemCoreLines ctx.cfg { title := "Vars" } [] depth ++
  (varsKVs ctx.cfg).flatMap fun s => itemCoreLines ctx.cfg { title := s } [] (depth + 1)

/-- `Config.render(depth)`: error section, warning section, debug tail. -/
def configRender (ctx : Ctx) (depth : Nat) : List String :=
  sectionFor ctx.cfg "errors" "red" "❌" ctx.cfg._errors depth ++
  sectionFor ctx.cfg "warnings" "yellow" "⚠️" ctx.cfg._warnings depth ++
  (if ctx.cfg.DEBUG then debugLines ctx depth else [])

/-- `Menu.render()`: newline-join of the title, the literal `"---"`, every
top-level item's lines at depth 0, and the ambient config's diagnostic
lines; `none` when an item's render raises. -/
def menuRender (ctx : Ctx) (m : Menu) : Option String :=
  (renderEL ctx 0 m.items).map fun ls =>
    String.intercalate "\n" (m.title :: "---" :: (ls ++ configRender ctx 0))

/-! ### `ShellItem` construction (src/pyxbar/menu_items.py, lines 47-66)

`ShellItem.__init__` is hand-written, so the dataclass machinery does not
replace it.  It calls the generated `MenuItem.__init__`, which runs
`ShellItem.__post_init__` while `cwd` still holds its class default `None`:
the `Path` conversion and the existence check are dead, and `cwd` is stored
afterwards as passed.  The `shell` tokenization does run: a non-empty
`shell` with no explicit `params` is `shlex.split`, each token re-quoted,
the first token becoming `shell` and the rest the (list-valued) `params`. -/

/-- The `__post_init__` tokenization step; `none` when `shlex.split` raises
or yields no token to unpack. -/
def tokenizeShell (f : MenuFields) : Option MenuFields :=
  if f.shell ≠ "" ∧ f.params.toList = [] then
    match shlexSplit f.shell with
    | none => none
    | some [] => none
    | some (s :: ps) =>
      some { f with shell := shlexQuote s, params := .lst (ps.map shlexQuote) }
  else some f

/-- `ShellItem(title, shell, cwd)`: the resulting field record and dynamic
kind. -/
def shellItemNew (title shell : String) (cwd : Option String) :
    Option (MenuFields × ItemKind) :=
  (tokenizeShell { title := title, shell := shell }).map fun f => (f, .shellKind cwd)

/-! ## Helper lemmas -/

theorem EList.cons_append (e : Entry) (a b : EList) :
    (EList.cons e a) ++ b = .cons e (a ++ b) := rfl

theorem EList.nil_append (b : EList) : EList.nil ++ b = b := rfl

theorem EList.append_assoc : ∀ a b c : EList, (a ++ b) ++ c = a ++ (b ++ c)
  | .nil, _, _ => rfl
  | .cons e es, b, c => by
    rw [EList.cons_append, EList.cons_append, EList.cons_append,
      EList.append_assoc es b c]

theorem mkTok_data (k v : String) : (mkTok k v).data = k.data ++ '=' :: v.data := by
  show ((k ++ "=") ++ v).data = _
  rw [show ((k ++ "=") ++ v).data = (k.data ++ ['=']) ++ v.data from rfl,
    List.append_assoc]
  rfl

/-- Splitting a list at a distinguished separator absent from both prefixes. -/
theorem eq_sep_split : ∀ l₁ l₂ m₁ m₂ : List Char, '=' ∉ l₁ → '=' ∉ l₂ →
    l₁ ++ '=' :: m₁ = l₂ ++ '=' :: m₂ → l₁ = l₂ ∧ m₁ = m₂
  | [], [], _, _, _, _, h => ⟨rfl, by simpa using h⟩
  | [], c :: l₂, _, _, _, h₂, h => by
    simp only [List.nil_append, List.cons_append, List.cons.injEq] at h
    exact absurd (h.1 ▸ List.mem_cons_self c l₂) h₂
  | c :: l₁, [], _, _, h₁, _, h => by
    simp only [List.nil_append, List.cons_append, List.cons.injEq] at h
    exact absurd (h.1.symm ▸ List.mem_cons_self c l₁) h₁
  | c :: l₁, d :: l₂, m₁, m₂, h₁, h₂, h => by
    simp only [List.cons_append, List.cons.injEq] at h
    have ih := eq_sep_split l₁ l₂ m₁ m₂ (fun hm => h₁ (List.mem_cons_of_mem c hm))
      (fun hm => h₂ (List.mem_cons_of_mem d hm)) h.2
    exact ⟨by rw [h.1, ih.1], ih.2⟩

/-- Two `key=value` tokens with separator-free keys agree exactly on key and
value. -/
theorem mkTok_inj {k₁ k₂ v₁ v₂ : String} (h₁ : '=' ∉ k₁.data) (h₂ : '=' ∉ k₂.data)
    (h : mkTok k₁ v₁ = mkTok k₂ v₂) : k₁ = k₂ ∧ v₁ = v₂ := by
  have hd := congrArg String.data h
  rw [mkTok_data, mkTok_data] at hd
  obtain ⟨hk, hv⟩ := eq_sep_split _ _ _ _ h₁ h₂ hd
  exact ⟨String.ext hk, String.ext hv⟩

/-- The ten decimal digit characters. -/
def decDigits : List Char := ['0', '1', '2', '3', '4', '5', '6', '7', '8', '9']

theorem digitChar_mem (d : Nat) : digitChar d ∈ decDigits := by
  rcases d with _|_|_|_|_|_|_|_|_|d <;> simp [digitChar, decDigits]

theorem natReprGo_digits : ∀ fuel n acc, (∀ c ∈ acc, c ∈ decDigits) →
    ∀ c ∈ natReprGo fuel n acc, c ∈ decDigits := by
  intro fuel
  induction fuel with
  | zero => intro n acc hacc; simpa [natReprGo] using hacc
  | succ fuel ih =>
    intro n acc hacc c hc
    rw [natReprGo] at hc
    by_cases h : n < 10
    · rw [if_pos h] at hc
      rcases List.mem_cons.mp hc with rfl | hm
      · exact digitChar_mem n
      · exact hacc _ hm
    · rw [if_neg h] at hc
      refine ih _ _ ?_ _ hc
      intro e he
      rcases List.mem_cons.mp he with rfl | hm
      · exact digitChar_mem _
      · exact hacc _ hm

theorem natRepr_digits {n : Nat} {c : Char} (h : c ∈ (natRepr n).data) :
    c ∈ decDigits :=
  natReprGo_digits _ _ _ (by simp) _ h

theorem natRepr_no_sep (n : Nat) : '=' ∉ (natRepr n).data := by
  intro h
  have := natRepr_digits h
  simp [decDigits] at this

theorem natReprGo_head : ∀ fuel n acc, n < fuel →
    ∃ d tail, natReprGo fuel n acc = digitChar d :: tail := by
  intro fuel
  induction fuel with
  | zero => intro n acc h; omega
  | succ fuel ih =>
    intro n acc h
    rw [natReprGo]
    by_cases h10 : n < 10
    · exact ⟨n, acc, by rw [if_pos h10]⟩
    · rw [if_neg h10]
      refine ih _ _ ?_
      have := Nat.div_lt_self (by omega : 0 < n) (by omega : 1 < 10)
      omega

theorem natRepr_head (n : Nat) : ∃ d tail, (natRepr n).data = digitChar d :: tail := by
  obtain ⟨d, tail, h⟩ := natReprGo_head (n + 1) n [] (by omega)
  exact ⟨d, tail, by rw [natRepr, h]⟩

theorem paramKey_data (x : String) :
    ("param" ++ x).data = 'p' :: 'a' :: 'r' :: 'a' :: 'm' :: x.data := rfl

theorem paramKey_no_sep (j : Nat) : '=' ∉ ("param" ++ natRepr j).data := by
  rw [paramKey_data]
  intro h
  simp only [List.mem_cons] at h
  rcases h with h|h|h|h|h|h
  · exact absurd h (by decide)
  · exact absurd h (by decide)
  · exact absurd h (by decide)
  · exact absurd h (by decide)
  · exact absurd h (by decide)
  · exact natRepr_no_sep j h

/-- A key whose first character is not `p` differs from every `param<i>`. -/
theorem ne_paramKey_of_head {K : String} (h : K.data.head? ≠ some 'p') (j : Nat) :
    K ≠ "param" ++ natRepr j := by
  intro he
  apply h
  rw [he, paramKey_data]
  rfl

/-- `"params"` differs from every numbered `param<i>` key. -/
theorem params_ne_paramKey (j : Nat) : ("params" : String) ≠ "param" ++ natRepr j := by
  intro he
  have hd : ('p' :: 'a' :: 'r' :: 'a' :: 'm' :: 's' :: [] : List Char)
      = 'p' :: 'a' :: 'r' :: 'a' :: 'm' :: (natRepr j).data := by
    have := congrArg String.data he
    rwa [paramKey_data] at this
  simp only [List.cons.injEq, true_and] at hd
  obtain ⟨d, tail, hdt⟩ := natRepr_head j
  rw [hdt] at hd
  injection hd with h1 h2
  have hmem := digitChar_mem d
  rw [← h1] at hmem
  simp [decDigits] at hmem

theorem paramToks_shape : ∀ (i : Nat) (ps : List String) (t : String),
    t ∈ paramToks i ps → ∃ j p, t = mkTok ("param" ++ natRepr j) p := by
  intro i ps
  induction ps generalizing i with
  | nil => intro t h; simp [paramToks] at h
  | cons p ps ih =>
    intro t h
    rw [paramToks] at h
    rcases List.mem_cons.mp h with rfl | hm
    · exact ⟨i, p, rfl⟩
    · exact ih _ _ hm

theorem mem_strIf {kv : String × String} {c : Prop} [Decidable c] {k v : String} :
    kv ∈ strIf c k v ↔ c ∧ kv = (k, v) := by
  by_cases h : c <;> simp [strIf, h]

theorem mem_optB {kv : String × String} {k : String} {o : Option Bool} :
    kv ∈ optB k o ↔ ∃ b, o = some b ∧ kv = (k, pyBool b) := by
  cases o <;> simp [optB]

/-- Membership in `menu_params`, spelled out field by field. -/
theorem mem_menuParams {cfg : Config} {f : MenuFields} {kv : String × String} :
    kv ∈ menuParams cfg f ↔
      (f.key ≠ "" ∧ kv = ("key", f.key)) ∨
      (f.href ≠ "" ∧ kv = ("href", f.href)) ∨
      (f.color ≠ "" ∧ kv = ("color", f.color)) ∨
      (effFont cfg f ≠ "" ∧ kv = ("font", effFont cfg f)) ∨
      (f.size ≠ 0 ∧ kv = ("size", intRepr f.size)) ∨
      (f.params.toList ≠ [] ∧ kv = ("params", pyParamsStr f.params)) ∨
      (∃ b, f.terminal = some b ∧ kv = ("terminal", pyBool b)) ∨
      (∃ b, f.refresh = some b ∧ kv = ("refresh", pyBool b)) ∨
      (∃ b, f.dropdown = some b ∧ kv = ("dropdown", pyBool b)) ∨
      (f.length ≠ 0 ∧ kv = ("length", intRepr f.length)) ∨
      (∃ b, f.trim = some b ∧ kv = ("trim", pyBool b)) ∨
      (∃ b, f.alternate = some b ∧ kv = ("alternate", pyBool b)) ∨
      (f.templateImage ≠ "" ∧ kv = ("templateImage", f.templateImage)) ∨
      (f.image ≠ "" ∧ kv = ("image", f.image)) ∨
      (∃ b, f.emojize = some b ∧ kv = ("emojize", pyBool b)) ∨
      (∃ b, f.ansi = some b ∧ kv = ("ansi", pyBool b)) ∨
      (∃ b, f.disabled = some b ∧ kv = ("disabled", pyBool b)) := by
  simp [menuParams, mem_strIf, mem_optB, List.mem_append, or_assoc]

/-- Every key emitted by `menu_params` is free of the separator. -/
theorem menuParams_key_no_sep {cfg : Config} {f : MenuFields} {k v : String}
    (h : (k, v) ∈ menuParams cfg f) : '=' ∉ k.data := by
  rw [mem_menuParams] at h
  simp only [Prod.mk.injEq] at h
  rcases h with ⟨_, rfl, _⟩|⟨_, rfl, _⟩|⟨_, rfl, _⟩|⟨_, rfl, _⟩|⟨_, rfl, _⟩|⟨_, rfl, _⟩|
    ⟨b, _, rfl, _⟩|⟨b, _, rfl, _⟩|⟨b, _, rfl, _⟩|⟨_, rfl, _⟩|⟨b, _, rfl, _⟩|⟨b, _, rfl, _⟩|
    ⟨_, rfl, _⟩|⟨_, rfl, _⟩|⟨b, _, rfl, _⟩|⟨b, _, rfl, _⟩|⟨b, _, rfl, _⟩ <;> decide

/-- Membership of a `K=V` token among a rendered line's tokens, for a key
that is neither `shell` nor a numbered `param<i>`: such a token can only come
from `menu_params`. -/
theorem tok_mem_lineTokens {cfg : Config} {f : MenuFields} {toks : List String}
    {K V : String} (h₁ : '=' ∉ K.data) (h₂ : K ≠ "shell")
    (h₃ : ∀ j, K ≠ "param" ++ natRepr j) :
    mkTok K V ∈ lineTokens cfg f toks ↔
      ∃ v, (K, v) ∈ menuParams cfg f ∧ V = shlexQuote v := by
  rw [lineTokens, List.mem_append]
  constructor
  · rintro (hs | hm)
    · exfalso
      cases toks with
      | nil => simp [shellTokenList] at hs
      | cons s rest =>
        rw [shellTokenList] at hs
        rcases List.mem_cons.mp hs with he | hp
        · exact h₂ (mkTok_inj h₁ (by decide) he).1
        · obtain ⟨j, p, hjp⟩ := paramToks_shape _ _ _ hp
          exact h₃ j (mkTok_inj h₁ (paramKey_no_sep j) hjp).1
    · rw [menuTokens] at hm
      obtain ⟨⟨k, v⟩, hkv, he⟩ := List.mem_map.mp hm
      obtain ⟨hK, hV⟩ := mkTok_inj (menuParams_key_no_sep hkv) h₁ he
      exact ⟨v, hK ▸ hkv, hV.symm⟩
  · rintro ⟨v, hv, rfl⟩
    exact Or.inr (List.mem_map.mpr ⟨(K, v), hv, rfl⟩)

theorem shlexQuote_pyBool (b : Bool) : shlexQuote (pyBool b) = pyBool b := by
  cases b <;> decide

theorem pyBool_inj {b b' : Bool} : pyBool b = pyBool b' ↔ b = b' := by
  cases b <;> cases b' <;> decide

theorem charToNat_inj {a b : Char} (h : a.toNat = b.toNat) : a = b :=
  Char.ext (UInt32.toNat.inj h)

theorem charsLe_total : ∀ as bs : List Char, charsLe as bs = true ∨ charsLe bs as = true
  | [], _ => Or.inl rfl
  | _ :: _, [] => Or.inr rfl
  | a :: as, b :: bs => by
    by_cases hab : a = b
    · subst hab
      rcases charsLe_total as bs with h | h
      · exact Or.inl (by rw [charsLe, if_pos rfl]; exact h)
      · exact Or.inr (by rw [charsLe, if_pos rfl]; exact h)
    · have hv : a.toNat ≠ b.toNat := fun hv => hab (charToNat_inj hv)
      rcases Nat.lt_or_ge a.toNat b.toNat with h | h
      · exact Or.inl (by rw [charsLe, if_neg hab]; exact decide_eq_true h)
      · refine Or.inr ?_
        rw [charsLe, if_neg (fun he => hab he.symm)]
        exact decide_eq_true (by omega)

theorem charsLe_trans : ∀ as bs cs : List Char, charsLe as bs = true →
    charsLe bs cs = true → charsLe as cs = true
  | [], _, _, _, _ => rfl
  | _ :: _, [], _, h₁, _ => by simp [charsLe] at h₁
  | _ :: _, _ :: _, [], _, h₂ => by simp [charsLe] at h₂
  | a :: as, b :: bs, c :: cs, h₁, h₂ => by
    by_cases hab : a = b
    · subst hab
      rw [charsLe, if_pos rfl] at h₁
      by_cases hbc : a = c
      · subst hbc
        rw [charsLe, if_pos rfl] at h₂ ⊢
        exact charsLe_trans as bs cs h₁ h₂
      · rw [charsLe, if_neg hbc] at h₂ ⊢
        exact h₂
    · rw [charsLe, if_neg hab] at h₁
      have hvab : a.toNat < b.toNat := of_decide_eq_true h₁
      by_cases hbc : b = c
      · subst hbc
        rw [charsLe, if_neg hab]
        exact decide_eq_true hvab
      · rw [charsLe, if_neg hbc] at h₂
        have hvbc : b.toNat < c.toNat := of_decide_eq_true h₂
        have hac : a ≠ c := fun he => by
          subst he
          omega
        rw [charsLe, if_neg hac]
        exact decide_eq_true (by omega)

theorem charsLe_antisymm : ∀ as bs : List Char, charsLe as bs = true →
    charsLe bs as = true → as = bs
  | [], [], _, _ => rfl
  | [], _ :: _, _, h₂ => by simp [charsLe] at h₂
  | _ :: _, [], h₁, _ => by simp [charsLe] at h₁
  | a :: as, b :: bs, h₁, h₂ => by
    by_cases hab : a = b
    · subst hab
      rw [charsLe, if_pos rfl] at h₁ h₂
      rw [charsLe_antisymm as bs h₁ h₂]
    · rw [charsLe, if_neg hab] at h₁
      rw [charsLe, if_neg (fun he => hab he.symm)] at h₂
      have hv₁ := of_decide_eq_true h₁
      have hv₂ := of_decide_eq_true h₂
      omega

instance : IsTotal String pyStrLe := ⟨fun a b => charsLe_total a.data b.data⟩

instance : IsTrans String pyStrLe :=
  ⟨fun a b c h₁ h₂ => charsLe_trans a.data b.data c.data h₁ h₂⟩

instance : IsAntisymm String pyStrLe :=
  ⟨fun a b h₁ h₂ => String.ext (charsLe_antisymm a.data b.data h₁ h₂)⟩

theorem strEmpty_append (s : String) : "" ++ s = s := rfl

theorem joinPipe_nil (t : String) : joinPipe t [] = t := rfl

theorem intercalate_single (s a : String) : s.intercalate [a] = a := rfl

/-- A plain item holding only a title renders, at depth 0, as exactly that
title. -/
theorem itemCoreLines_title_only (c : Config) (tt : String) :
    itemCoreLines c { title := tt } [] 0 = [tt] := by
  simp [itemCoreLines, joinPipe, titleOf, depthIndent, repeatStr, lineTokens,
    shellTokenList, menuTokens, menuParams, strIf, optB, effFont, PyParams.toList,
    strEmpty_append, intercalate_single,
    eq_false (by decide : ¬ ("" : String) = "monospace")]

/-- A diagnostic message item renders, at depth 0, as the single line
`<space><glyph><space><msg>`. -/
theorem itemCoreLines_msg (c : Config) (glyph x : String) :
    itemCoreLines c (msgFields glyph 0 x) [] 0 = [" " ++ glyph ++ " " ++ x] := by
  simp [itemCoreLines, msgFields, joinPipe, titleOf, depthIndent, repeatStr,
    lineTokens, shellTokenList, menuTokens, menuParams, strIf, optB, effFont,
    PyParams.toList, strEmpty_append, intercalate_single,
    eq_false (by decide : ¬ ("" : String) = "monospace")]

/-- A category header item renders, at depth 0, as its title plus the
`color=` token. -/
theorem itemCoreLines_header (c : Config) (t col : String) (hcol : col ≠ "") :
    itemCoreLines c (headerFields t col) [] 0
      = [joinPipe t [mkTok "color" (shlexQuote col)]] := by
  simp [itemCoreLines, headerFields, joinPipe, titleOf, depthIndent, repeatStr,
    lineTokens, shellTokenList, menuTokens, menuParams, strIf, optB, effFont,
    PyParams.toList, strEmpty_append, hcol,
    eq_false (by decide : ¬ ("" : String) = "monospace")]

/-- Counting a diagnostic line in one rendered `Config.render` category at
depth 0: the divider and header contribute nothing, and the message block
contributes one line per stored copy of the message. -/
theorem section_count_aux (c : Config) (t col glyph : String) (msgs : List String)
    (m : String) (hne : msgs ≠ [])
    (hdl : itemCoreLines c { title := "---" } [] 0 = ["---"])
    (hhl : ∃ hl : String, itemCoreLines c (headerFields t col) [] 0 = [hl]
      ∧ hl ≠ " " ++ glyph ++ " " ++ m)
    (hd : ("---" : String) ≠ " " ++ glyph ++ " " ++ m) :
    (sectionFor c t col glyph msgs 0).count (" " ++ glyph ++ " " ++ m)
      = msgs.count m := by
  obtain ⟨hl, hhl1, hhl2⟩ := hhl
  rw [sectionFor, if_neg hne, hdl, hhl1]
  have hflat : ∀ l : List String,
      (l.flatMap fun x => itemCoreLines c (msgFields glyph 0 x) [] 0)
        = l.map fun x => " " ++ glyph ++ " " ++ x := by
    intro l
    induction l with
    | nil => rfl
    | cons x xs ih => rw [List.flatMap_cons, ih, itemCoreLines_msg]; rfl
  rw [hflat, List.count_append, List.count_append]
  have hinj : Function.Injective fun x : String => " " ++ glyph ++ " " ++ x := by
    intro x y hxy
    have hdd : (" " ++ glyph ++ " ").data ++ x.data
        = (" " ++ glyph ++ " ").data ++ y.data := congrArg String.data hxy
    exact String.ext (List.append_cancel_left hdd)
  rw [List.count_map_of_injective _ _ hinj, sortStrings,
    (List.perm_insertionSort pyStrLe msgs).count_eq]
  have h1 : List.count (" " ++ glyph ++ " " ++ m) ["---"] = 0 := by
    simp [List.count_cons, hd.symm]
  have h2 : List.count (" " ++ glyph ++ " " ++ m) [hl] = 0 := by
    simp [List.count_cons, hhl2]
  rw [h1, h2]
  omega

/-! ## Claims -/

/-- Claim C2: a `MenuItem` whose `only_if` value is falsy renders the empty
sequence at every depth — no title line, no alternate line, and nothing from
the subclass hook, the submenu or the siblings, whatever they are. -/
theorem only_if_falsy_renders_nothing (ctx : Ctx) (f : MenuFields) (kind : ItemKind)
    (sub sib : EList) (depth : Nat) (h : f.only_if = false) :
    entryRender ctx depth (.item f kind sub sib) = some [] := by
  simp [entryRender, renderEL, h]

/-- Witness for C2 at a concrete gated-off item. -/
theorem only_if_falsy_renders_nothing_witness :
    entryRender { cfg := {}, userExpand := fun s => s, sysVersion := "" } 0
      (.item { title := "X", only_if := false } .plain .nil .nil) = some [] :=
  only_if_falsy_renders_nothing _ _ _ _ _ _ rfl

/-- Claim C5 (code bug): for `ShellItem("Run", shell="echo 'a b' c")`,
`check_output()` passes the *quoted* tokens straight to `subprocess` (no
shell is involved), so the argument vector is `["echo", "'a b'", "c"]` —
the second element keeps its literal single quotes — and not the
`["echo", "a b", "c"]` the specification states. -/
theorem check_output_argv_quoted_bug :
    ((shellItemNew "Run" ("echo " ++ sqS ++ "a b" ++ sqS ++ " c") none).map
        fun p => checkOutputArgv p.1)
      = some (some ["echo", sqS ++ "a b" ++ sqS, "c"])
    ∧ ["echo", sqS ++ "a b" ++ sqS, "c"] ≠ ["echo", "a b", "c"] := by
  exact ⟨by decide, by decide⟩

/-- Claim C8 counterexample: `Config.__post_init__` records no error for a
missing path — for a concrete `Config` whose `CACHE_DIR` names a
non-existent location, construction leaves `_errors` empty (the embedded
post-init consults no filesystem oracle at all, so no property of the disk
can change this). -/
theorem config_postinit_no_exists_check :
    (configPostInit (fun s => s)
      { DEBUG := false, MONO_FONT := "Andale Mono", CACHE_DIR := "/nonexistent",
        _errors := [], _warnings := [] })._errors = [] := rfl

/-- Claim C8 (amended): construction expands `Path`-valued configuration
fields (the `expanduser().resolve()` oracle is applied to `CACHE_DIR`), it
never aborts, and it records nothing: `_errors` and `_warnings` are
unchanged — there is no existence check. -/
theorem config_postinit_expands_paths (pr : String → String) (cfg : Config) :
    (configPostInit pr cfg).CACHE_DIR = pr cfg.CACHE_DIR ∧
    (configPostInit pr cfg)._errors = cfg._errors ∧
    (configPostInit pr cfg)._warnings = cfg._warnings :=
  ⟨rfl, rfl, rfl⟩

/-- Claim C10: passing the literal string `"---"` to `with_submenu`,
`with_siblings` or `Menu.with_items` appends a `Divider()` and then — the
string also matching the iterable branch — extends the same list with the
three one-character strings `"-"`; a lone `Divider` is never the result. -/
theorem divider_string_iterable_quirk (f : MenuFields) (k : ItemKind)
    (sub sib : EList) (m : Menu) :
    withSubmenu (.item f k sub sib) [.ent (.raw "---")] =
      .item f k (sub ++ .cons dividerEntry
        (elOfList [.raw "-", .raw "-", .raw "-"])) sib
  ∧ withSiblings (.item f k sub sib) [.ent (.raw "---")] =
      .item f k sub (sib ++ .cons dividerEntry
        (elOfList [.raw "-", .raw "-", .raw "-"]))
  ∧ Menu.withItems m [.ent (.raw "---")] =
      { m with items := m.items ++ (EList.cons dividerEntry
        (elOfList [.raw "-", .raw "-", .raw "-"])) } := by
  have hstep : ∀ acc : EList, withOne acc (.ent (.raw "---")) =
      acc ++ .cons dividerEntry (elOfList [.raw "-", .raw "-", .raw "-"]) := by
    intro acc
    show (acc ++ .cons dividerEntry .nil) ++
        elOfList [.raw "-", .raw "-", .raw "-"] = _
    rw [EList.append_assoc]
    rfl
  refine ⟨?_, ?_, ?_⟩
  · show Entry.item f k (withOne sub (.ent (.raw "---"))) sib = _
    rw [hstep]
  · show Entry.item f k sub (withOne sib (.ent (.raw "---"))) = _
    rw [hstep]
  · show { m with items := withOne m.items (.ent (.raw "---")) } = _
    rw [hstep]

set_option maxHeartbeats 1600000 in
/-- Claim C6: `Config.error` / `Config.warn` are idempotent inserts into a
deduplicated message list: a second identical call leaves the state
unchanged, and (starting from a state holding at most one copy) the stored
list holds the message exactly once, so the rendered diagnostic section at
depth 0 contains exactly one line for the message. -/
theorem config_message_dedup (cfg : Config) (m : String) :
    Config.error (Config.error cfg m) m = Config.error cfg m
  ∧ Config.warn (Config.warn cfg m) m = Config.warn cfg m
  ∧ (cfg._errors.count m ≤ 1 → (Config.error cfg m)._errors.count m = 1)
  ∧ (cfg._warnings.count m ≤ 1 → (Config.warn cfg m)._warnings.count m = 1)
  ∧ (cfg._errors.count m ≤ 1 →
      (sectionFor (Config.error cfg m) "errors" "red" "❌"
          (Config.error cfg m)._errors 0).count (" " ++ "❌" ++ " " ++ m) = 1)
  ∧ (cfg._warnings.count m ≤ 1 →
      (sectionFor (Config.warn cfg m) "warnings" "yellow" "⚠️"
          (Config.warn cfg m)._warnings 0).count (" " ++ "⚠️" ++ " " ++ m) = 1) := by
  have herr : cfg._errors.count m ≤ 1 → (Config.error cfg m)._errors.count m = 1 := by
    intro hc
    by_cases h : m ∈ cfg._errors
    · have := List.count_pos_iff.mpr h
      simp [Config.error, h]
      omega
    · have h0 : cfg._errors.count m = 0 := List.count_eq_zero.mpr h
      simp [Config.error, h, h0]
  have hwarn : cfg._warnings.count m ≤ 1 → (Config.warn cfg m)._warnings.count m = 1 := by
    intro hc
    by_cases h : m ∈ cfg._warnings
    · have := List.count_pos_iff.mpr h
      simp [Config.warn, h]
      omega
    · have h0 : cfg._warnings.count m = 0 := List.count_eq_zero.mpr h
      simp [Config.warn, h, h0]
  refine ⟨?_, ?_, herr, hwarn, ?_, ?_⟩
  · by_cases h : m ∈ cfg._errors <;> simp [Config.error, h]
  · by_cases h : m ∈ cfg._warnings <;> simp [Config.warn, h]
  · intro hc
    have h1 := herr hc
    have hmem : m ∈ (Config.error cfg m)._errors := by
      rw [← List.count_pos_iff]
      omega
    rw [section_count_aux _ _ _ _ _ _
      (by intro h0; rw [h0] at hmem; simp at hmem)
      (itemCoreLines_title_only _ _)
      ⟨"errors | color=red",
        by rw [itemCoreLines_header _ _ _ (by decide)]; rfl, ?_⟩ ?_]
    · exact h1
    · intro h
      have hdd : ("errors | color=red").data = ' ' :: '❌' :: ' ' :: m.data :=
        congrArg String.data h
      have h2 : some 'e' = some ' ' := congrArg List.head? hdd
      exact absurd h2 (by decide)
    · intro h
      have hdd : ("---" : String).data = ' ' :: '❌' :: ' ' :: m.data :=
        congrArg String.data h
      have h2 : some '-' = some ' ' := congrArg List.head? hdd
      exact absurd h2 (by decide)
  · intro hc
    have h1 := hwarn hc
    have hmem : m ∈ (Config.warn cfg m)._warnings := by
      rw [← List.count_pos_iff]
      omega
    rw [section_count_aux _ _ _ _ _ _
      (by intro h0; rw [h0] at hmem; simp at hmem)
      (itemCoreLines_title_only _ _)
      ⟨"warnings | color=yellow",
        by rw [itemCoreLines_header _ _ _ (by decide)]; rfl, ?_⟩ ?_]
    · exact h1
    · intro h
      have hdd : ("warnings | color=yellow").data = ' ' :: '⚠' :: '️' :: ' ' :: m.data :=
        congrArg String.data h
      have h2 : some 'w' = some ' ' := congrArg List.head? hdd
      exact absurd h2 (by decide)
    · intro h
      have hdd : ("---" : String).data = ' ' :: '⚠' :: '️' :: ' ' :: m.data :=
        congrArg String.data h
      have h2 : some '-' = some ' ' := congrArg List.head? hdd
      exact absurd h2 (by decide)

/-- Witness for C6 at a fresh config and the message `"x"`. -/
theorem config_message_dedup_witness :
    Config.error (Config.error {} "x") "x" = Config.error {} "x"
    ∧ (Config.error {} "x")._errors.count "x" = 1 :=
  ⟨(config_message_dedup {} "x").1,
   (config_message_dedup {} "x").2.2.1 (by decide)⟩

set_option maxHeartbeats 1600000 in
/-- Claim C1: with an ambient config holding no errors, no warnings and
debug off, `Menu("Test").with_items(MenuItem("A", href="http://x"),
Divider(), MenuItem("B", disabled=True)).render()` is exactly the five
newline-joined lines `Test`, `---`, `A | href=http://x`, `---`,
`B | disabled=True`, with no trailing diagnostics. -/
theorem menu_render_end_to_end (cfg : Config) (ex : String → String) (sysv : String)
    (hD : cfg.DEBUG = false) (hE : cfg._errors = []) (hW : cfg._warnings = []) :
    menuRender { cfg := cfg, userExpand := ex, sysVersion := sysv }
      (Menu.withItems { title := "Test" }
        [.ent (.item { title := "A", href := "http://x" } .plain .nil .nil),
         .ent dividerEntry,
         .ent (.item { title := "B", disabled := some true } .plain .nil .nil)])
      = some "Test\n---\nA | href=http://x\n---\nB | disabled=True" := by
  have hcfg : configRender { cfg := cfg, userExpand := ex, sysVersion := sysv } 0 = [] := by
    simp [configRender, sectionFor, hE, hW, hD]
  have hitems : renderEL { cfg := cfg, userExpand := ex, sysVersion := sysv } 0
      (Menu.withItems { title := "Test" }
        [.ent (.item { title := "A", href := "http://x" } .plain .nil .nil),
         .ent dividerEntry,
         .ent (.item { title := "B", disabled := some true } .plain .nil .nil)]).items
      = some ["A | href=http://x", "---", "B | disabled=True"] := rfl
  rw [menuRender, hitems, Option.map_some']
  rw [hcfg]
  rfl

/-- Closing step for a ternary-boolean clause: the disjunction produced by
`menu_params` membership pins the token value to `pyBool` of the stored
boolean. -/
theorem ternary_aux {o : Option Bool} {b : Bool} :
    (∃ v, (o = some false ∧ v = pyBool false ∨ o = some true ∧ v = pyBool true) ∧
      pyBool b = shlexQuote v) ↔ o = some b := by
  constructor
  · rintro ⟨v, (⟨hx, rfl⟩ | ⟨hx, rfl⟩), hq⟩ <;> rw [shlexQuote_pyBool] at hq <;>
      rw [pyBool_inj.mp hq] <;> exact hx
  · intro hx
    cases b
    · exact ⟨pyBool false, Or.inl ⟨hx, rfl⟩, (shlexQuote_pyBool false).symm⟩
    · exact ⟨pyBool true, Or.inr ⟨hx, rfl⟩, (shlexQuote_pyBool true).symm⟩

/-- Closing step for a truthiness clause: the token value is pinned to the
field's own (stringified) value. -/
theorem truthy_aux {P : Prop} {x : String} :
    (∃ v, (P ∧ v = x) ∧ shlexQuote x = shlexQuote v) ↔ P := by
  constructor
  · rintro ⟨v, ⟨hp, rfl⟩, _⟩; exact hp
  · intro hp; exact ⟨x, ⟨hp, rfl⟩, rfl⟩

/-- Claim C3: among the serialized tokens of a rendered line, each
ternary-boolean field contributes its `field=True` / `field=False` token
exactly when the field holds an explicit boolean (explicit `False`
included; `None` is omitted), while each other serialized field contributes
its `key=value` token exactly when its value is truthy — for `font`, the
value in question is the field after the monospace resolution that
`menu_params` itself performs. -/
theorem ternary_and_truthy_serialization (ctx : Ctx) (f : MenuFields)
    (kind : ItemKind) (ts : List String) (h : allTokens ctx f kind = some ts) :
    (∀ b, (mkTok "terminal" (pyBool b) ∈ ts ↔ f.terminal = some b))
  ∧ (∀ b, (mkTok "refresh" (pyBool b) ∈ ts ↔ f.refresh = some b))
  ∧ (∀ b, (mkTok "dropdown" (pyBool b) ∈ ts ↔ f.dropdown = some b))
  ∧ (∀ b, (mkTok "trim" (pyBool b) ∈ ts ↔ f.trim = some b))
  ∧ (∀ b, (mkTok "alternate" (pyBool b) ∈ ts ↔ f.alternate = some b))
  ∧ (∀ b, (mkTok "emojize" (pyBool b) ∈ ts ↔ f.emojize = some b))
  ∧ (∀ b, (mkTok "ansi" (pyBool b) ∈ ts ↔ f.ansi = some b))
  ∧ (∀ b, (mkTok "disabled" (pyBool b) ∈ ts ↔ f.disabled = some b))
  ∧ (mkTok "key" (shlexQuote f.key) ∈ ts ↔ f.key ≠ "")
  ∧ (mkTok "href" (shlexQuote f.href) ∈ ts ↔ f.href ≠ "")
  ∧ (mkTok "color" (shlexQuote f.color) ∈ ts ↔ f.color ≠ "")
  ∧ (mkTok "font" (shlexQuote (effFont ctx.cfg f)) ∈ ts ↔ effFont ctx.cfg f ≠ "")
  ∧ (mkTok "size" (shlexQuote (intRepr f.size)) ∈ ts ↔ f.size ≠ 0)
  ∧ (mkTok "length" (shlexQuote (intRepr f.length)) ∈ ts ↔ f.length ≠ 0)
  ∧ (mkTok "templateImage" (shlexQuote f.templateImage) ∈ ts ↔ f.templateImage ≠ "")
  ∧ (mkTok "image" (shlexQuote f.image) ∈ ts ↔ f.image ≠ "") := by
  rw [allTokens] at h
  obtain ⟨base, hb, hts⟩ := Option.map_eq_some'.mp h
  subst hts
  refine ⟨?_, ?_, ?_, ?_, ?_, ?_, ?_, ?_, ?_, ?_, ?_, ?_, ?_, ?_, ?_, ?_⟩
  · intro b
    rw [tok_mem_lineTokens (by decide) (by decide) (ne_paramKey_of_head (by decide))]
    simp only [mem_menuParams, Prod.mk.injEq]
    simp
    exact ternary_aux
  · intro b
    rw [tok_mem_lineTokens (by decide) (by decide) (ne_paramKey_of_head (by decide))]
    simp only [mem_menuParams, Prod.mk.injEq]
    simp
    exact ternary_aux
  · intro b
    rw [tok_mem_lineTokens (by decide) (by decide) (ne_paramKey_of_head (by decide))]
    simp only [mem_menuParams, Prod.mk.injEq]
    simp
    exact ternary_aux
  · intro b
    rw [tok_mem_lineTokens (by decide) (by decide) (ne_paramKey_of_head (by decide))]
    simp only [mem_menuParams, Prod.mk.injEq]
    simp
    exact ternary_aux
  · intro b
    rw [tok_mem_lineTokens (by decide) (by decide) (ne_paramKey_of_head (by decide))]
    simp only [mem_menuParams, Prod.mk.injEq]
    simp
    exact ternary_aux
  · intro b
    rw [tok_mem_lineTokens (by decide) (by decide) (ne_paramKey_of_head (by decide))]
    simp only [mem_menuParams, Prod.mk.injEq]
    simp
    exact ternary_aux
  · intro b
    rw [tok_mem_lineTokens (by decide) (by decide) (ne_paramKey_of_head (by decide))]
    simp only [mem_menuParams, Prod.mk.injEq]
    simp
    exact ternary_aux
  · intro b
    rw [tok_mem_lineTokens (by decide) (by decide) (ne_paramKey_of_head (by decide))]
    simp only [mem_menuParams, Prod.mk.injEq]
    simp
    exact ternary_aux
  · rw [tok_mem_lineTokens (by decide) (by decide) (ne_paramKey_of_head (by decide))]
    simp [mem_menuParams, Prod.mk.injEq]
    exact truthy_aux
  · rw [tok_mem_lineTokens (by decide) (by decide) (ne_paramKey_of_head (by decide))]
    simp [mem_menuParams, Prod.mk.injEq]
    exact truthy_aux
  · rw [tok_mem_lineTokens (by decide) (by decide) (ne_paramKey_of_head (by decide))]
    simp [mem_menuParams, Prod.mk.injEq]
    exact truthy_aux
  · rw [tok_mem_lineTokens (by decide) (by decide) (ne_paramKey_of_head (by decide))]
    simp [mem_menuParams, Prod.mk.injEq]
    exact truthy_aux
  · rw [tok_mem_lineTokens (by decide) (by decide) (ne_paramKey_of_head (by decide))]
    simp [mem_menuParams, Prod.mk.injEq]
    exact truthy_aux
  · rw [tok_mem_lineTokens (by decide) (by decide) (ne_paramKey_of_head (by decide))]
    simp [mem_menuParams, Prod.mk.injEq]
    exact truthy_aux
  · rw [tok_mem_lineTokens (by decide) (by decide) (ne_paramKey_of_head (by decide))]
    simp [mem_menuParams, Prod.mk.injEq]
    exact truthy_aux
  · rw [tok_mem_lineTokens (by decide) (by decide) (ne_paramKey_of_head (by decide))]
    simp [mem_menuParams, Prod.mk.injEq]
    exact truthy_aux

/-- Witness for C3 at a concrete item: explicit `disabled=False` is
serialized, unset `terminal` is not, truthy `href` is, empty `color` is
not. -/
theorem ternary_and_truthy_serialization_witness :
    (mkTok "disabled" (pyBool false)
        ∈ lineTokens ({} : Config) { title := "T", href := "h", disabled := some false }
            (dispatchToks { cfg := {}, userExpand := fun s => s, sysVersion := "" } .plain []))
    ∧ ¬ (mkTok "terminal" (pyBool true)
        ∈ lineTokens ({} : Config) { title := "T", href := "h", disabled := some false }
            (dispatchToks { cfg := {}, userExpand := fun s => s, sysVersion := "" } .plain []))
    ∧ (mkTok "href" (shlexQuote "h")
        ∈ lineTokens ({} : Config) { title := "T", href := "h", disabled := some false }
            (dispatchToks { cfg := {}, userExpand := fun s => s, sysVersion := "" } .plain []))
    ∧ ¬ (mkTok "color" (shlexQuote "")
        ∈ lineTokens ({} : Config) { title := "T", href := "h", disabled := some false }
            (dispatchToks { cfg := {}, userExpand := fun s => s, sysVersion := "" } .plain [])) := by
  have h := ternary_and_truthy_serialization
    { cfg := {}, userExpand := fun s => s, sysVersion := "" }
    { title := "T", href := "h", disabled := some false } .plain _ rfl
  refine ⟨(h.2.2.2.2.2.2.2.1 false).mpr rfl, ?_, (h.2.2.2.2.2.2.2.2.2.1).mpr (by decide), ?_⟩
  · intro hmem
    exact Option.noConfusion ((h.1 true).mp hmem)
  · intro hmem
    exact absurd ((h.2.2.2.2.2.2.2.2.2.2.1).mp hmem) (by simp)

/-- Claim C9: the `params` field itself is iterated by the `key=value`
serializer — only `title` and `shell` are excluded — so a rendered line
carries a `params=<quoted str(params)>` token exactly when the `params`
sequence is non-empty (for a tokenized `ShellItem` the stored value is a
list, and Python `str` of that list is what gets quoted). -/
theorem params_field_serialized (ctx : Ctx) (f : MenuFields) (kind : ItemKind)
    (ts : List String) (h : allTokens ctx f kind = some ts) :
    mkTok "params" (shlexQuote (pyParamsStr f.params)) ∈ ts ↔
      f.params.toList ≠ [] := by
  rw [allTokens] at h
  obtain ⟨base, hb, hts⟩ := Option.map_eq_some'.mp h
  subst hts
  rw [tok_mem_lineTokens (by decide) (by decide) params_ne_paramKey]
  simp [mem_menuParams, Prod.mk.injEq]
  exact truthy_aux

/-- Witness for C9: the `ShellItem("Run", shell="echo 'a b' c")` fields
(the multi-token shell string leaves `params = ["'a b'", "c"]`) render with
a `params=` token. -/
theorem params_field_serialized_witness :
    shellItemNew "Run" ("echo " ++ sqS ++ "a b" ++ sqS ++ " c") none
      = some ({ title := "Run", shell := "echo", params := .lst [shlexQuote "a b", "c"] }, .shellKind none)
    ∧ mkTok "params"
        (shlexQuote (pyParamsStr (PyParams.lst [shlexQuote "a b", "c"])))
      ∈ lineTokens ({} : Config)
          { title := "Run", shell := "echo", params := .lst [shlexQuote "a b", "c"] }
          (dispatchToks { cfg := {}, userExpand := fun s => s, sysVersion := "" }
            (.shellKind none) ["echo", shlexQuote "a b", "c"]) := by
  constructor
  · decide
  · exact (params_field_serialized
      { cfg := {}, userExpand := fun s => s, sysVersion := "" }
      { title := "Run", shell := "echo", params := .lst [shlexQuote "a b", "c"] }
      (.shellKind none) _ rfl).mpr (by decide)

/-- Claim C7: `Config.render` emits each non-empty category as a divider, a
colored header, then one line per message in lexicographic (code-point) sort
order of the message strings — the sorted list is ordered and is a
permutation of the stored messages, and it is invariant under the insertion
order. -/
theorem config_render_sorted_messages (ctx : Ctx) (depth : Nat) :
    (ctx.cfg._errors ≠ [] →
      configRender ctx depth =
        (itemCoreLines ctx.cfg { title := "---" } [] depth ++
         itemCoreLines ctx.cfg (headerFields "errors" "red") [] depth ++
         (sortStrings ctx.cfg._errors).flatMap fun m =>
           itemCoreLines ctx.cfg (msgFields "❌" depth m) [] depth) ++
        sectionFor ctx.cfg "warnings" "yellow" "⚠️" ctx.cfg._warnings depth ++
        (if ctx.cfg.DEBUG then debugLines ctx depth else []))
  ∧ (ctx.cfg._warnings ≠ [] →
      configRender ctx depth =
        sectionFor ctx.cfg "errors" "red" "❌" ctx.cfg._errors depth ++
        (itemCoreLines ctx.cfg { title := "---" } [] depth ++
         itemCoreLines ctx.cfg (headerFields "warnings" "yellow") [] depth ++
         (sortStrings ctx.cfg._warnings).flatMap fun m =>
           itemCoreLines ctx.cfg (msgFields "⚠️" depth m) [] depth) ++
        (if ctx.cfg.DEBUG then debugLines ctx depth else []))
  ∧ (sortStrings ctx.cfg._errors).Sorted pyStrLe
  ∧ (sortStrings ctx.cfg._warnings).Sorted pyStrLe
  ∧ (∀ l l' : List String, l.Perm l' → sortStrings l = sortStrings l') := by
  refine ⟨?_, ?_, List.sorted_insertionSort _ _, List.sorted_insertionSort _ _, ?_⟩
  · intro he
    rw [configRender, sectionFor, if_neg he]
  · intro hw
    rw [configRender]
    rw [show sectionFor ctx.cfg "warnings" "yellow" "⚠️" ctx.cfg._warnings depth =
      itemCoreLines ctx.cfg { title := "---" } [] depth ++
        itemCoreLines ctx.cfg (headerFields "warnings" "yellow") [] depth ++
        ((sortStrings ctx.cfg._warnings).flatMap fun m =>
          itemCoreLines ctx.cfg (msgFields "⚠️" depth m) [] depth)
      from by rw [sectionFor, if_neg hw]]
  · intro l l' hp
    exact List.eq_of_perm_of_sorted
      ((List.perm_insertionSort _ l).trans
        (hp.trans (List.perm_insertionSort _ l').symm))
      (List.sorted_insertionSort _ l) (List.sorted_insertionSort _ l')

/-- Witness for C7: warnings inserted as `["zebra", "apple"]` render with the
`apple` line before the `zebra` line, after the divider and the colored
header. -/
theorem config_render_sorted_messages_witness :
    configRender { cfg := { _warnings := ["zebra", "apple"] }, userExpand := fun s => s, sysVersion := "" } 0
      = ["---", "warnings | color=yellow", " ⚠️ apple", " ⚠️ zebra"] := by
  rw [(config_render_sorted_messages { cfg := { _warnings := ["zebra", "apple"] }, userExpand := fun s => s, sysVersion := "" } 0).2.1 (by decide)]
  rfl

/-- Claim C4 counterexample: `ShellItem("Run", shell="echo hi", cwd="/x")`
renders with the `cd` prefix serialized — `shell=cd`, `param1=/x`,
`param2=&&` come first, refuting "the rendered serialization never includes
the cd, expanded-cwd, or && tokens". -/
theorem render_includes_cd_counterexample :
    ((shellItemNew "Run" "echo hi" (some "/x")).map fun p =>
        allTokens { cfg := {}, userExpand := fun s => s, sysVersion := "" } p.1 p.2)
      = some (some ["shell=cd", "param1=/x", "param2=&&", "param3=echo", "param4=hi",
          mkTok "params" (shlexQuote (pyListRepr ["hi"]))]) := by
  decide

/-- Claim C4 (amended): for a `ShellItem` with a truthy `cwd`, the rendered
serialization *does* include the working-directory prefix — the tokens are
`shell=cd`, `param1=<expanduser(cwd)>`, `param2=&&`, then the quoted command
and params numbered from 3, then the `key=value` attributes; the unprefixed
form is used by `check_output`, which passes `use_cwd=False`. -/
theorem shell_cwd_prefix_serialized (ctx : Ctx) (f : MenuFields) (d : String)
    (base : List String) (hd : d ≠ "") (hb : baseShellParams f = some base) :
    allTokens ctx f (.shellKind (some d)) =
      some (mkTok "shell" "cd" :: mkTok "param1" (ctx.userExpand d) ::
        mkTok "param2" "&&" :: (paramToks 3 base ++ menuTokens ctx.cfg f))
    ∧ checkOutputArgv f = some base := by
  constructor
  · rw [allTokens, hb, Option.map_some']
    rw [show dispatchToks ctx (.shellKind (some d)) base =
        "cd" :: ctx.userExpand d :: "&&" :: base
      from by rw [dispatchToks, if_pos hd]]
    rw [lineTokens, shellTokenList, paramToks, paramToks]
    rfl
  · exact hb

/-- Witness for C4's amended claim at a concrete `ShellItem`. -/
theorem shell_cwd_prefix_serialized_witness :
    allTokens { cfg := {}, userExpand := fun s => s, sysVersion := "" }
        { title := "Run", shell := "echo", params := .lst ["hi"] }
        (.shellKind (some "/x"))
      = some (mkTok "shell" "cd" :: mkTok "param1" "/x" :: mkTok "param2" "&&" ::
          (paramToks 3 ["echo", "hi"] ++
            menuTokens {} { title := "Run", shell := "echo", params := .lst ["hi"] }))
    ∧ checkOutputArgv { title := "Run", shell := "echo", params := .lst ["hi"] }
      = some ["echo", "hi"] :=
  shell_cwd_prefix_serialized
    { cfg := {}, userExpand := fun s => s, sysVersion := "" }
    { title := "Run", shell := "echo", params := .lst ["hi"] }
    "/x" ["echo", "hi"] (by decide) (by decide)

/-- Witness for C1 at a concrete ambient config. -/
theorem menu_render_end_to_end_witness :
    menuRender { cfg := {}, userExpand := fun s => s, sysVersion := "3.11" }
      (Menu.withItems { title := "Test" }
        [.ent (.item { title := "A", href := "http://x" } .plain .nil .nil),
         .ent dividerEntry,
         .ent (.item { title := "B", disabled := some true } .plain .nil .nil)])
      = some "Test\n---\nA | href=http://x\n---\nB | disabled=True" :=
  menu_render_end_to_end {} (fun s => s) "3.11" rfl rfl rfl

end PyXbar
